import Mathlib

/-!
Shallow embedding of the winsock QUIC echo server (`src/main.rs`).

The server front-ends the external quiche engine: it classifies first-contact
datagrams (version negotiation, stateless retry, token validation), keeps a
registry of live connections keyed by connection-id bytes, and drives one
overlapped UDP socket with a single receive slot and a single send slot.

External collaborators (the quiche engine and the keyed hash) are modelled as
oracle functions bundled in `Api`, and per-connection engine behaviour is
modelled as finite scripts stored inside each `Conn` (each engine call consumes
the next script element).  Rust panics (`unwrap` on `None`, out-of-bounds
slicing) are modelled by returning `none` from the embedded function.
Calls into the engine are recorded in an event trace (`Ev`), mirroring the
observability the Rust code gets from its `println` logging.
-/

/-- Byte strings are lists of byte values. -/
abbrev Bytes := List Nat

/-- `std::net::IpAddr`: a V4 address carries four octets, a V6 address its
octet sequence (sixteen bytes in reality, only consumed via `octets().to_vec()`). -/
inductive IpAddr where
  | v4 (a b c d : Nat)
  | v6 (octets : List Nat)
deriving DecidableEq

/-- The octet bytes of an address, as produced by `octets().to_vec()` in
`mint_token` and `validate_token`. -/
def IpAddr.octets : IpAddr → Bytes
  | .v4 a b c d => [a, b, c, d]
  | .v6 o => o

/-- `std::net::SocketAddr`: ip plus port. -/
structure SocketAddr where
  ip : IpAddr
  port : Nat
deriving DecidableEq

/-- `quiche::MAX_CONN_ID_LEN`. -/
def MAX_CONN_ID_LEN : Nat := 20

/-- `quiche::Type`: the packet type carried by a parsed header. -/
inductive PacketType where
  | initial
  | retry
  | handshake
  | zeroRTT
  | versionNegotiation
  | short
deriving DecidableEq

/-- The fields of `quiche::Header` that the dispatch code reads. -/
structure Header where
  ty : PacketType
  version : Nat
  scid : Bytes
  dcid : Bytes
  token : Option Bytes
deriving DecidableEq

/-- The literal byte string `b"quiche"` (ASCII `q u i c h e`). -/
def quicheTag : Bytes := [113, 117, 105, 99, 104, 101]

/-- `mint_token`: tag, then the sender's IP octets, then the header's
destination connection id. -/
def mint_token (hdr : Header) (src : SocketAddr) : Bytes :=
  quicheTag ++ src.ip.octets ++ hdr.dcid

/-- `validate_token`: check the 6-byte tag, check the embedded address against
the sender, and recover the original destination connection id. -/
def validate_token (src : SocketAddr) (token : Bytes) : Option Bytes :=
  if token.length < 6 then none
  else if token.take 6 ≠ quicheTag then none
  else if (token.drop 6).length < src.ip.octets.length ∨
      (token.drop 6).take src.ip.octets.length ≠ src.ip.octets then none
  else some ((token.drop 6).drop src.ip.octets.length)

/-- Result of one `conn.stream_send` call (`Ok(n)`, `Err(Done)`, other error). -/
inductive StRes where
  | okS (n : Nat)
  | doneS
  | errS
deriving DecidableEq

/-- Script for one readable stream: the successive `Ok` results of
`stream_recv`, and the successive results of `stream_send`. -/
structure StreamScript where
  sid : Nat
  recvs : List (Nat × Bool)
  sends : List StRes
deriving DecidableEq

/-- Result of one `conn.send` call: a datagram plus its destination, `Done`,
or another engine error. -/
inductive SendStep where
  | okD (bytes : Bytes) (dst : SocketAddr)
  | doneD
  | errD
deriving DecidableEq

/-- Scripted behaviour of one quiche connection handle: the outcome of the
next `conn.recv` call, the handshake flags, the readable streams, the queue of
`conn.send` outcomes, and the value `is_closed()` reports. -/
structure Conn where
  recvRes : Option Nat
  inEarly : Bool
  estab : Bool
  streams : List StreamScript
  sendQueue : List SendStep
  closed : Bool
deriving DecidableEq

/-- `struct Client { conn }`. -/
structure Client where
  conn : Conn
deriving DecidableEq

/-- `ClientMap`: association list mirroring the `HashMap` keyed by
connection-id bytes. -/
abbrev ClientMap := List (Bytes × Client)

/-- `HashMap::contains_key`. -/
def containsKey (m : ClientMap) (k : Bytes) : Bool :=
  m.any fun p => decide (p.1 = k)

/-- `HashMap::get_mut` (first binding for the key wins). -/
def lookupC : ClientMap → Bytes → Option Client
  | [], _ => none
  | p :: rest, k => if p.1 = k then some p.2 else lookupC rest k

/-- `HashMap::insert`: the new binding replaces any existing binding for the
same key. -/
def insertC (k : Bytes) (v : Client) (m : ClientMap) : ClientMap :=
  (k, v) :: m.filter fun p => decide (p.1 ≠ k)

/-- Trace of quiche-engine calls made while processing, mirroring the
observability of the Rust logging. -/
inductive Ev where
  | negotiateVersion (scid dcid : Bytes)
  | retryPacket (scid dcid newScid token : Bytes) (version : Nat)
  | acceptCall (scid : Bytes) (odcid : Option Bytes) (src : SocketAddr)
  | ingest (key : Bytes) (ok : Bool)
  | streamRecv (sid : Nat)
  | streamSend (sid : Nat)
  | closeCall
deriving DecidableEq

/-- `enum QuicServerError`. -/
inductive QuicServerError where
  | versionNegotiation
  | statelessRetry
  | protocolError
deriving DecidableEq

/-- Oracle functions for the external collaborators: quiche's stateless
helpers, the keyed hash (`ring::hmac::sign` with the process seed), and the
header parser. -/
structure Api where
  version_is_supported : Nat → Bool
  negotiate_version : Bytes → Bytes → Bytes
  retry : Bytes → Bytes → Bytes → Bytes → Nat → Bytes
  hmacSign : Bytes → Bytes
  parseHeader : Bytes → Option Header
  accept : Bytes → Option Bytes → SocketAddr → Conn

/-- `QuicServer::handle_handshake`.  Returns the engine outcome, the bytes the
call wrote into the shared `out` buffer (with `*write` set to their length),
and the engine-call trace; `none` models a panic (`hdr.token.unwrap()` on a
token-less Initial, or `copy_from_slice` on a conn id of the wrong length). -/
def handle_handshake (api : Api) (src : SocketAddr) (hdr : Header) (connId : Bytes) :
    Option (Except QuicServerError Client × Option Bytes × List Ev) :=
  if hdr.ty ≠ PacketType.initial then
    some (.error .protocolError, none, [])
  else if !api.version_is_supported hdr.version then
    some (.error .versionNegotiation, some (api.negotiate_version hdr.scid hdr.dcid),
      [.negotiateVersion hdr.scid hdr.dcid])
  else if connId.length ≠ MAX_CONN_ID_LEN then
    -- `scid.copy_from_slice(&conn_id)` with a 20-byte array
    none
  else
    match hdr.token with
    | none => none
    | some token =>
      if token.isEmpty then
        let newToken := mint_token hdr src
        some (.error .statelessRetry,
          some (api.retry hdr.scid hdr.dcid connId newToken hdr.version),
          [.retryPacket hdr.scid hdr.dcid connId newToken hdr.version])
      else
        match validate_token src token with
        | none => some (.error .protocolError, none, [])
        | some odcid =>
          -- `scid.len() != hdr.dcid.len()` where `scid` is the 20-byte copy of `conn_id`
          if connId.length ≠ hdr.dcid.length then
            some (.error .protocolError, none, [])
          else
            -- `let scid = hdr.dcid.clone()` then `quiche::accept(&scid, odcid, from, ..)`
            some (.ok ⟨api.accept hdr.dcid (some odcid) src⟩, none,
              [.acceptCall hdr.dcid (some odcid) src])

/-- The send slot and the shared buffers of one `EchoServer`: the `out` buffer
content, `send_len`, the `sending` flag, an oracle saying whether each
successive `WSASendTo` completes synchronously (`popPend` of an empty oracle
defaults to synchronous), and the list of datagrams handed to `WSASendTo`. -/
structure ChanSt where
  out : Bytes
  send_len : Nat
  sending : Bool
  pend : List Bool
  emitted : List (Bytes × SocketAddr)
deriving DecidableEq

/-- The `EchoServer` state the dispatch passes read and write. -/
structure ServerSt where
  clients : ClientMap
  chan : ChanSt
deriving DecidableEq

/-- Writing `b` into the front of the `out` buffer. -/
def writeOut (b old : Bytes) : Bytes := b ++ old.drop b.length

/-- Apply the buffer write performed inside `handle_handshake` (also sets
`send_len`, mirroring `*write = ...`). -/
def applyWrite (st : ServerSt) : Option Bytes → ServerSt
  | none => st
  | some b =>
    { st with chan := { st.chan with out := writeOut b st.chan.out, send_len := b.length } }

/-- Consume the next pending-oracle entry; `true` means the send completed
synchronously, `false` means `WSA_IO_PENDING`. -/
def popPend : List Bool → Bool × List Bool
  | [] => (true, [])
  | b :: rest => (b, rest)

/-- `sendto`: hand `payload` to `WSASendTo` for `to`; returns whether the call
completed synchronously, plus the updated state. -/
def doSendto (st : ServerSt) (payload : Bytes) (dst : SocketAddr) : Bool × ServerSt :=
  let (sync, p) := popPend st.chan.pend
  (sync, { st with chan :=
    { st.chan with pend := p, emitted := st.chan.emitted ++ [(payload, dst)] } })

/-- Set the `sending` flag after a send went pending. -/
def setSending (st : ServerSt) : ServerSt :=
  { st with chan := { st.chan with sending := true } }

/-- Consume the next `stream_send` script entry (empty script defaults to
`Err(Done)`). -/
def popS : List StRes → StRes × List StRes
  | [] => (.doneS, [])
  | r :: rest => (r, rest)

/-- The `while let Ok((read, fin)) = conn.stream_recv(..)` echo loop for one
stream: each iteration reads from the stream and echoes the bytes back with
`stream_send(s, buf, true)`; a `stream_send` error breaks the loop. -/
def echoStream (sid : Nat) : List (Nat × Bool) → List StRes →
    List (Nat × Bool) × List StRes × List Ev
  | [], sends => ([], sends, [])
  | _rf :: rest, sends =>
    match popS sends with
    | (.errS, sends') => (rest, sends', [.streamRecv sid])
    | (_, sends') =>
      let (r, s, evs) := echoStream sid rest sends'
      (r, s, .streamRecv sid :: .streamSend sid :: evs)

/-- The `for s in conn.readable()` loop. -/
def echoStreams : List StreamScript → List StreamScript × List Ev
  | [] => ([], [])
  | sc :: rest =>
    let (recvs', sends', evs) := echoStream sc.sid sc.recvs sc.sends
    let (rest', evs2) := echoStreams rest
    ({ sc with recvs := recvs', sends := sends' } :: rest', evs ++ evs2)

/-- The ingest tail of `process_packets` (lines 279-330): feed the datagram to
`conn.recv`; on error drop the datagram and return `true`; if the connection
is in early data or established, run the stream echo loop.  The mutated client
is stored back under the key it was found under, modelling the `&mut` borrow. -/
def ingestEcho (st : ServerSt) (key : Bytes) (c : Client) (tr : List Ev) :
    ServerSt × Bool × List Ev :=
  match c.conn.recvRes with
  | none => (st, true, tr ++ [.ingest key false])
  | some _read =>
    if c.conn.inEarly || c.conn.estab then
      let (streams', evs) := echoStreams c.conn.streams
      let c' : Client := ⟨{ c.conn with streams := streams' }⟩
      ({ st with clients := insertC key c' st.clients }, true,
        tr ++ [.ingest key true] ++ evs)
    else
      (st, true, tr ++ [.ingest key true])

/-- The first-contact arm of `process_packets` (lines 238-270): run
`handle_handshake`; on any of the three error variants send the current `out`
buffer prefix of length `send_len` to the sender if the send slot is free; on
success insert the new client keyed by the raw `hdr.dcid`, look it up again
(`get_mut(..).unwrap()`), and fall into the ingest tail. -/
def handshakeBranch (api : Api) (src : SocketAddr) (hdr : Header) (connId : Bytes)
    (st : ServerSt) : Option (ServerSt × Bool × List Ev) :=
  match handle_handshake api src hdr connId with
  | none => none
  | some (.error _e, written, tr) =>
    let st1 := applyWrite st written
    if st1.chan.sending then some (st1, true, tr)
    else
      let (sync, st2) := doSendto st1 (st1.chan.out.take st1.chan.send_len) src
      if sync then some (st2, true, tr)
      else some (setSending st2, false, tr)
  | some (.ok client, written, tr) =>
    let st1 := applyWrite st written
    let st2 := { st1 with clients := insertC hdr.dcid client st1.clients }
    match lookupC st2.clients hdr.dcid with
    | none => none
    | some c => some (ingestEcho st2 hdr.dcid c tr)

/-- `EchoServer::process_packets`: parse the header (drop the datagram and
return `true` on failure), derive the routed conn id from the keyed hash, and
dispatch: if neither the raw `hdr.dcid` nor the derived id is a registry key,
take the handshake branch, otherwise ingest into the entry found under
`hdr.dcid` first, else under the derived id.  `none` models a panic (slicing a
short hmac digest, or the unreachable final `unwrap`). -/
def process_packets (api : Api) (src : SocketAddr) (pkt : Bytes) (st : ServerSt) :
    Option (ServerSt × Bool × List Ev) :=
  match api.parseHeader pkt with
  | none => some (st, true, [])
  | some hdr =>
    let digest := api.hmacSign hdr.dcid
    if digest.length < MAX_CONN_ID_LEN then none
    else
      let connId := digest.take MAX_CONN_ID_LEN
      if !containsKey st.clients hdr.dcid && !containsKey st.clients connId then
        handshakeBranch api src hdr connId st
      else
        match lookupC st.clients hdr.dcid with
        | some c => some (ingestEcho st hdr.dcid c [])
        | none =>
          match lookupC st.clients connId with
          | some c => some (ingestEcho st connId c [])
          | none => none

/-- The inner egress loop of `EchoServer::send_packets` for one connection:
pull the next outgoing datagram from `conn.send` (which writes it into the
shared `out` buffer), and hand it to `sendto` only when the `sending` flag is
clear; a pending send sets the flag and breaks; `Done` breaks; another engine
error calls `conn.close` and breaks. -/
def egressOne : ServerSt → List SendStep → ServerSt × List SendStep × List Ev
  | st, [] => (st, [], [])
  | st, .doneD :: rest => (st, rest, [])
  | st, .errD :: rest => (st, rest, [.closeCall])
  | st, .okD bytes dst :: rest =>
    let st1 := { st with chan := { st.chan with out := writeOut bytes st.chan.out } }
    if st1.chan.sending then
      egressOne st1 rest
    else
      let (sync, st2) := doSendto st1 bytes dst
      if sync then egressOne st2 rest
      else (setSending st2, rest, [])

/-- The outer egress loop: `for client in self.clients.values_mut()`. -/
def egressAll : ServerSt → List (Bytes × Client) → ServerSt × List (Bytes × Client) × List Ev
  | st, [] => (st, [], [])
  | st, (k, c) :: rest =>
    let (st1, q', evs1) := egressOne st c.conn.sendQueue
    let c' : Client := ⟨{ c.conn with sendQueue := q' }⟩
    let (st2, rest', evs2) := egressAll st1 rest
    (st2, (k, c') :: rest', evs1 ++ evs2)

/-- The garbage-collection tail of `send_packets`:
`self.clients.retain(|_, c| !c.conn.is_closed())`. -/
def collect_terminated (m : ClientMap) : ClientMap :=
  m.filter fun kc => !kc.2.conn.closed

/-- `EchoServer::send_packets`: egress pass over every live connection, then
collect terminated connections. -/
def send_packets (st : ServerSt) : ServerSt × List Ev :=
  let (st1, clients', evs) := egressAll st st.clients
  ({ st1 with clients := collect_terminated clients' }, evs)

/-! ### Helper lemmas -/

theorem take_len_append (a b : Bytes) : (a ++ b).take a.length = a := by
  induction a with
  | nil => rfl
  | cons x xs ih => simp [ih]

theorem drop_len_append (a b : Bytes) : (a ++ b).drop a.length = b := by
  induction a with
  | nil => rfl
  | cons x xs ih => simp [ih]

/-! ### C5: retry-token round trip -/

/-- C5: minting a token from a header and a sender address and validating it
against the same sender address succeeds and recovers exactly the header's
destination connection id; and validation of any token whose embedded address
bytes (the bytes after the 6-byte tag, at the presented address's length)
differ from the presented sender address returns `none`. -/
theorem C5_token_roundtrip (hdr : Header) (src : SocketAddr) (token : Bytes) :
    validate_token src (mint_token hdr src) = some hdr.dcid ∧
    ((token.drop 6).take src.ip.octets.length ≠ src.ip.octets →
      validate_token src token = none) := by
  constructor
  · have hassoc : mint_token hdr src = quicheTag ++ (src.ip.octets ++ hdr.dcid) := by
      rw [mint_token, List.append_assoc]
    have h1 : ¬ ((quicheTag ++ (src.ip.octets ++ hdr.dcid)).length < 6) := by
      simp [quicheTag]
    have h2 : (quicheTag ++ (src.ip.octets ++ hdr.dcid)).take 6 = quicheTag :=
      take_len_append quicheTag _
    have h3 : (quicheTag ++ (src.ip.octets ++ hdr.dcid)).drop 6 = src.ip.octets ++ hdr.dcid :=
      drop_len_append quicheTag _
    rw [hassoc]
    unfold validate_token
    rw [if_neg h1, if_neg (fun h => h h2), h3,
      if_neg (not_or.mpr ⟨by rw [List.length_append]; omega,
        fun h => h (take_len_append src.ip.octets hdr.dcid)⟩),
      drop_len_append]
  · intro hne
    unfold validate_token
    by_cases ha : token.length < 6
    · rw [if_pos ha]
    · rw [if_neg ha]
      by_cases hb : token.take 6 ≠ quicheTag
      · rw [if_pos hb]
      · rw [if_neg hb, if_pos (Or.inr hne)]

/-- C5 witness: a concrete round trip and a concrete mismatched token. -/
theorem C5_witness :
    validate_token ⟨.v4 1 2 3 4, 443⟩
        (mint_token ⟨.initial, 1, [7], [42, 43], some []⟩ ⟨.v4 1 2 3 4, 443⟩) =
      some [42, 43] ∧
    validate_token ⟨.v4 1 2 3 4, 443⟩ [113, 117, 105, 99, 104, 101, 9, 9, 9, 9] = none :=
  ⟨(C5_token_roundtrip ⟨.initial, 1, [7], [42, 43], some []⟩ ⟨.v4 1 2 3 4, 443⟩
      [113, 117, 105, 99, 104, 101, 9, 9, 9, 9]).1,
   (C5_token_roundtrip ⟨.initial, 1, [7], [42, 43], some []⟩ ⟨.v4 1 2 3 4, 443⟩
      [113, 117, 105, 99, 104, 101, 9, 9, 9, 9]).2 (by decide)⟩

/-! ### C10: token validation is total and length-guarded -/

/-- C10: `validate_token` is a total function (it is a Lean `def` defined for
every sender address and every byte sequence, returning `none` instead of
reading out of bounds), and its success branch is reached exactly when the
token is at least tag-length plus address-length bytes long, carries the tag,
and embeds the sender's address bytes. -/
theorem C10_validate_token_total (src : SocketAddr) (token : Bytes) :
    (validate_token src token).isSome = true ↔
      (6 + src.ip.octets.length ≤ token.length ∧
       token.take 6 = quicheTag ∧
       (token.drop 6).take src.ip.octets.length = src.ip.octets) := by
  have hlen : (token.drop 6).length = token.length - 6 := List.length_drop 6 token
  unfold validate_token
  by_cases ha : token.length < 6
  · rw [if_pos ha]
    simp only [Option.isSome_none, Bool.false_eq_true, false_iff]
    rintro ⟨h, -, -⟩
    omega
  · rw [if_neg ha]
    by_cases hb : token.take 6 ≠ quicheTag
    · rw [if_pos hb]
      simp only [Option.isSome_none, Bool.false_eq_true, false_iff]
      rintro ⟨-, h, -⟩
      exact hb h
    · rw [if_neg hb]
      by_cases hc : (token.drop 6).length < src.ip.octets.length ∨
          (token.drop 6).take src.ip.octets.length ≠ src.ip.octets
      · rw [if_pos hc]
        simp only [Option.isSome_none, Bool.false_eq_true, false_iff]
        rintro ⟨h1, -, h3⟩
        rcases hc with hc | hc
        · omega
        · exact hc h3
      · rw [if_neg hc]
        rw [not_or] at hc
        simp only [Option.isSome_some, true_iff]
        refine ⟨?_, not_ne_iff.mp hb, not_ne_iff.mp hc.2⟩
        have h4 := hc.1
        omega

/-! ### C8: garbage collection is exact and idempotent -/

/-- C8: the collection pass keeps exactly the registry entries whose engine
handle does not report a closed state (so it removes exactly the closed ones
and no others), and running it twice with no state change in between removes
nothing further. -/
theorem C8_collect_terminated_exact_idempotent (m : ClientMap) (k : Bytes) (c : Client) :
    ((k, c) ∈ collect_terminated m ↔ ((k, c) ∈ m ∧ c.conn.closed = false)) ∧
    collect_terminated (collect_terminated m) = collect_terminated m := by
  constructor
  · simp [collect_terminated, List.mem_filter]
  · simp [collect_terminated, List.filter_filter]

/-! ### C9: header-parse failure drops the datagram and continues -/

/-- C9: when the header parser rejects the datagram, `process_packets` returns
normally with `true`, leaves the whole server state (registry, buffers, send
slot) unchanged, emits nothing, and makes no engine call. -/
theorem C9_parse_failure_drops (api : Api) (src : SocketAddr) (pkt : Bytes) (st : ServerSt)
    (hp : api.parseHeader pkt = none) :
    process_packets api src pkt st = some (st, true, []) := by
  simp only [process_packets, hp]

/-- A connection script used by concrete fixtures. -/
def conn0 : Conn := ⟨some 0, false, false, [], [], false⟩

/-- A concrete sender address used by witnesses. -/
def from0 : SocketAddr := ⟨.v4 1 2 3 4, 443⟩

/-- An oracle bundle whose header parser rejects everything. -/
def noHdrApi : Api :=
  ⟨fun _ => true, fun _ _ => [], fun _ _ _ _ _ => [], fun _ => [], fun _ => none,
   fun _ _ _ => conn0⟩

/-- An initial server state: empty registry, idle slot, empty buffers. -/
def st0 : ServerSt := ⟨[], ⟨[], 0, false, [], []⟩⟩

/-- C9 witness: a concrete unparsable datagram is dropped with the state kept. -/
theorem C9_witness : process_packets noHdrApi from0 [0] st0 = some (st0, true, []) :=
  C9_parse_failure_drops noHdrApi from0 [0] st0 rfl

/-! ### Registry and ingest helper lemmas -/

theorem containsKey_eq_isSome (m : ClientMap) (k : Bytes) :
    containsKey m k = (lookupC m k).isSome := by
  induction m with
  | nil => rfl
  | cons p rest ih =>
    by_cases h : p.1 = k
    · simp [containsKey, lookupC, h]
    · simpa [containsKey, lookupC, h] using ih

theorem lookupC_insertC_self (k : Bytes) (v : Client) (m : ClientMap) :
    lookupC (insertC k v m) k = some v := by
  simp [insertC, lookupC]

theorem lookupC_filter_ne (m : ClientMap) (k k' : Bytes) (h : k' ≠ k) :
    lookupC (m.filter fun p => decide (p.1 ≠ k)) k' = lookupC m k' := by
  induction m with
  | nil => rfl
  | cons p rest ih =>
    by_cases hp : p.1 = k
    · have hpk : ¬ (p.1 = k') := by
        rw [hp]
        exact fun hh => h hh.symm
      simp only [decide_not] at ih ⊢
      simp [List.filter_cons, hp, lookupC, hpk, ih]
      rw [if_neg fun hh => h hh.symm]
    · by_cases hpk : p.1 = k'
      · simp only [decide_not] at ih ⊢
        simp [List.filter_cons, hp, lookupC, hpk, h]
      · simp only [decide_not] at ih ⊢
        simp [List.filter_cons, hp, lookupC, hpk, ih]

theorem lookupC_insertC_ne (k k' : Bytes) (v : Client) (m : ClientMap) (h : k' ≠ k) :
    lookupC (insertC k v m) k' = lookupC m k' := by
  rw [insertC]
  show (if k = k' then some v else lookupC (m.filter fun p => decide (p.1 ≠ k)) k') = _
  rw [if_neg fun hh => h hh.symm]
  exact lookupC_filter_ne m k k' h

theorem filter_ne_eq_self (k : Bytes) : ∀ m : ClientMap, containsKey m k = false →
    (m.filter fun p => decide (p.1 ≠ k)) = m := by
  intro m
  induction m with
  | nil => intro _; rfl
  | cons q rest ih =>
    intro h
    simp only [containsKey, List.any_eq_false, decide_eq_true_eq] at h
    have hq : ¬ q.1 = k := h q (by simp)
    have hr : containsKey rest k = false := by
      simp only [containsKey, List.any_eq_false, decide_eq_true_eq]
      exact fun p hp => h p (by simp [hp])
    simp [List.filter_cons, hq, ih hr]
    exact fun a b hab => h (a, b) (by simp [hab])

theorem insertC_length (k : Bytes) (v : Client) (m : ClientMap)
    (h : containsKey m k = false) : (insertC k v m).length = m.length + 1 := by
  simp [insertC, filter_ne_eq_self k m h]
  exact fun a b hab =>
    (by simpa only [containsKey, List.any_eq_false, decide_eq_true_eq] using h : ∀ p ∈ m, ¬ p.1 = k)
      (a, b) hab

theorem insertC_insertC (k : Bytes) (v w : Client) (m : ClientMap) :
    insertC k v (insertC k w m) = insertC k v m := by
  unfold insertC
  simp [List.filter_cons, List.filter_filter]

theorem ingestEcho_chan (st : ServerSt) (key : Bytes) (c : Client) (tr : List Ev) :
    (ingestEcho st key c tr).1.chan = st.chan := by
  unfold ingestEcho
  cases hc : c.conn.recvRes with
  | none => rfl
  | some n =>
    by_cases h : (c.conn.inEarly || c.conn.estab) = true
    · simp [h]
    · simp [h]

theorem ingestEcho_clients (st : ServerSt) (key : Bytes) (c : Client) (tr : List Ev) :
    (ingestEcho st key c tr).1.clients = st.clients ∨
    ∃ c', (ingestEcho st key c tr).1.clients = insertC key c' st.clients := by
  unfold ingestEcho
  cases hc : c.conn.recvRes with
  | none => exact Or.inl rfl
  | some n =>
    by_cases h : (c.conn.inEarly || c.conn.estab) = true
    · refine Or.inr ⟨⟨{ c.conn with streams := (echoStreams c.conn.streams).1 }⟩, ?_⟩
      rcases hse : echoStreams c.conn.streams with ⟨streams', evs⟩
      simp [h, hse]
    · simp [h]

theorem ingestEcho_ret (st : ServerSt) (key : Bytes) (c : Client) (tr : List Ev) :
    (ingestEcho st key c tr).2.1 = true := by
  unfold ingestEcho
  cases hc : c.conn.recvRes with
  | none => rfl
  | some n =>
    by_cases h : (c.conn.inEarly || c.conn.estab) = true
    · simp [h]
    · simp [h]

/-! ### C6: lookup checks the raw id and the routed id -/

/-- C6: dispatch after a successful parse checks the raw `hdr.dcid` and its
keyed-hash derivation as registry keys: a live entry under the raw id handles
the datagram; otherwise a live entry under the derived id handles it; only
when neither key resolves is the datagram handed to the handshake branch. -/
theorem C6_lookup_both_keys (api : Api) (src : SocketAddr) (pkt : Bytes) (st : ServerSt)
    (hdr : Header) (hp : api.parseHeader pkt = some hdr)
    (hd : MAX_CONN_ID_LEN ≤ (api.hmacSign hdr.dcid).length) :
    (∀ c, lookupC st.clients hdr.dcid = some c →
        process_packets api src pkt st = some (ingestEcho st hdr.dcid c [])) ∧
    (lookupC st.clients hdr.dcid = none →
      ∀ c, lookupC st.clients ((api.hmacSign hdr.dcid).take MAX_CONN_ID_LEN) = some c →
        process_packets api src pkt st =
          some (ingestEcho st ((api.hmacSign hdr.dcid).take MAX_CONN_ID_LEN) c [])) ∧
    (lookupC st.clients hdr.dcid = none →
      lookupC st.clients ((api.hmacSign hdr.dcid).take MAX_CONN_ID_LEN) = none →
        process_packets api src pkt st =
          handshakeBranch api src hdr ((api.hmacSign hdr.dcid).take MAX_CONN_ID_LEN) st) := by
  refine ⟨?_, ?_, ?_⟩
  · intro c h1
    have hck : containsKey st.clients hdr.dcid = true := by
      rw [containsKey_eq_isSome, h1]
      rfl
    simp only [process_packets, hp]
    rw [if_neg (Nat.not_lt.mpr hd)]
    simp [hck, h1]
  · intro h0 c h1
    have hck0 : containsKey st.clients hdr.dcid = false := by
      rw [containsKey_eq_isSome, h0]
      rfl
    have hck1 : containsKey st.clients ((api.hmacSign hdr.dcid).take MAX_CONN_ID_LEN) = true := by
      rw [containsKey_eq_isSome, h1]
      rfl
    simp only [process_packets, hp]
    rw [if_neg (Nat.not_lt.mpr hd)]
    simp [hck0, hck1, h0, h1]
  · intro h0 h1
    have hck0 : containsKey st.clients hdr.dcid = false := by
      rw [containsKey_eq_isSome, h0]
      rfl
    have hck1 : containsKey st.clients ((api.hmacSign hdr.dcid).take MAX_CONN_ID_LEN) = false := by
      rw [containsKey_eq_isSome, h1]
      rfl
    simp only [process_packets, hp]
    rw [if_neg (Nat.not_lt.mpr hd)]
    simp [hck0, hck1]

/-- An oracle bundle and a registry used by the C6 witness: the parser always
returns a fixed short-header packet whose destination id is a live key. -/
def c6Hdr : Header := ⟨.short, 1, [], [3], none⟩

/-- Oracle bundle for the C6 witness. -/
def c6Api : Api :=
  ⟨fun _ => true, fun _ _ => [], fun _ _ _ _ _ => [], fun _ => List.replicate 32 7,
   fun _ => some c6Hdr, fun _ _ _ => conn0⟩

/-- Registry with one live entry under the raw destination id. -/
def c6St : ServerSt := ⟨[([3], ⟨conn0⟩)], ⟨[], 0, false, [], []⟩⟩

/-- C6 witness: for a concrete datagram whose raw destination id is a live
key, the pass ingests into that entry. -/
theorem C6_witness :
    process_packets c6Api from0 [0] c6St = some (ingestEcho c6St [3] ⟨conn0⟩ []) :=
  (C6_lookup_both_keys c6Api from0 [0] c6St c6Hdr rfl (by decide)).1 ⟨conn0⟩ rfl

/-! ### C7: unsupported version yields one negotiation datagram, no entry -/

theorem take_writeOut (b o : Bytes) : (writeOut b o).take b.length = b := by
  rw [writeOut]
  exact take_len_append b _

/-- C7: an Initial packet with an unsupported version makes `process_packets`
call `negotiate_version` exactly once (the only engine call in the trace, so
in particular no `accept` call happens), write the produced datagram into the
send buffer, create no registry entry, and — whenever the send slot is free —
hand exactly that one datagram to the socket addressed to the sender. -/
theorem C7_version_negotiation (api : Api) (src : SocketAddr) (pkt : Bytes) (st : ServerSt)
    (hdr : Header)
    (hp : api.parseHeader pkt = some hdr)
    (hty : hdr.ty = PacketType.initial)
    (hv : api.version_is_supported hdr.version = false)
    (hd : MAX_CONN_ID_LEN ≤ (api.hmacSign hdr.dcid).length)
    (h1 : containsKey st.clients hdr.dcid = false)
    (h2 : containsKey st.clients ((api.hmacSign hdr.dcid).take MAX_CONN_ID_LEN) = false) :
    ∃ st' ret,
      process_packets api src pkt st = some (st', ret, [.negotiateVersion hdr.scid hdr.dcid]) ∧
      st'.clients = st.clients ∧
      (st.chan.sending = false →
        st'.chan.emitted =
          st.chan.emitted ++ [(api.negotiate_version hdr.scid hdr.dcid, src)]) := by
  have hh : handle_handshake api src hdr ((api.hmacSign hdr.dcid).take MAX_CONN_ID_LEN) =
      some (.error .versionNegotiation, some (api.negotiate_version hdr.scid hdr.dcid),
        [.negotiateVersion hdr.scid hdr.dcid]) := by
    unfold handle_handshake
    rw [if_neg (by simp [hty]), if_pos (by simp [hv])]
  have hpb : process_packets api src pkt st =
      handshakeBranch api src hdr ((api.hmacSign hdr.dcid).take MAX_CONN_ID_LEN) st := by
    simp only [process_packets, hp]
    rw [if_neg (Nat.not_lt.mpr hd)]
    simp [h1, h2]
  rw [hpb]
  simp only [handshakeBranch, hh, applyWrite]
  by_cases hs : st.chan.sending = true
  · simp only [hs, if_true]
    exact ⟨_, _, rfl, rfl, fun hf => by simp at hf⟩
  · have hs0 : st.chan.sending = false := by
      simpa using hs
    simp only [hs0, Bool.false_eq_true, if_false, doSendto]
    cases hpd : st.chan.pend with
    | nil =>
      simp only [popPend, take_writeOut, if_true]
      exact ⟨_, _, rfl, rfl, fun _ => rfl⟩
    | cons b pr =>
      cases b with
      | true =>
        simp only [popPend, take_writeOut, if_true]
        exact ⟨_, _, rfl, rfl, fun _ => rfl⟩
      | false =>
        simp only [popPend, take_writeOut, Bool.false_eq_true, if_false, setSending]
        exact ⟨_, _, rfl, rfl, fun _ => rfl⟩

/-- Header used by the C7 witness: Initial with an unsupported version. -/
def vnHdr : Header := ⟨.initial, 99, [1], [2], none⟩

/-- Oracle bundle for the C7 witness: every version is unsupported and the
negotiation datagram is the fixed byte string `[9, 9]`. -/
def vnApi : Api :=
  ⟨fun _ => false, fun _ _ => [9, 9], fun _ _ _ _ _ => [], fun _ => List.replicate 32 5,
   fun _ => some vnHdr, fun _ _ _ => conn0⟩

/-- C7 witness: a concrete unsupported-version Initial produces exactly one
negotiation datagram for the sender and leaves the empty registry empty. -/
theorem C7_witness : ∃ st' ret,
    process_packets vnApi from0 [0] st0 = some (st', ret, [.negotiateVersion [1] [2]]) ∧
    st'.clients = st0.clients ∧
    (st0.chan.sending = false → st'.chan.emitted = st0.chan.emitted ++ [([9, 9], from0)]) :=
  C7_version_negotiation vnApi from0 [0] st0 vnHdr rfl rfl rfl (by decide) rfl rfl

/-! ### C1: invalid token is not dropped silently (code bug) -/

/-- Header carried by the C1 failing input: Initial, supported version, and a
six-byte token whose tag is not `b"quiche"`. -/
def c1Hdr : Header := ⟨.initial, 7, [1], List.replicate 20 1, some [0, 0, 0, 0, 0, 0]⟩

/-- Oracle bundle for the C1 failing input. -/
def c1Api : Api :=
  ⟨fun _ => true, fun _ _ => [], fun _ _ _ _ _ => [], fun _ => List.replicate 32 2,
   fun _ => some c1Hdr, fun _ _ _ => conn0⟩

/-- Server state for the C1 failing input: free send slot, and the send buffer
still holding three stale bytes from an earlier reply (`send_len = 3`). -/
def c1St : ServerSt := ⟨[], ⟨[9, 9, 9], 3, false, [], []⟩⟩

/-- The state after processing the C1 failing input. -/
def c1After : ServerSt := ⟨[], ⟨[9, 9, 9], 3, false, [], [([9, 9, 9], from0)]⟩⟩

/-- C1: on a first-contact Initial whose non-empty token fails validation, the
code does not drop the datagram silently: the shared error arm of
`process_packets` still calls `sendto`, emitting a reply datagram built from
the stale send buffer and stale `send_len` to the sender.  (No registry entry
is created, so only the no-reply half of the claim fails.) -/
theorem C1_invalid_token_sends_reply :
    process_packets c1Api from0 [0] c1St = some (c1After, true, []) ∧
    c1After.chan.emitted = [([9, 9, 9], from0)] ∧
    c1After.clients = [] :=
  ⟨rfl, rfl, rfl⟩

/-! ### C2: egress while the send slot is in flight drops datagrams (code bug) -/

/-- Destination used by scripted outgoing datagrams. -/
def dst0 : SocketAddr := ⟨.v4 5 6 7 8, 1000⟩

/-- A connection whose engine has one outgoing datagram queued, then `Done`. -/
def c2Conn : Conn := ⟨some 0, false, false, [], [.okD [5] dst0, .doneD], false⟩

/-- Server state for the C2 failing input: one live connection and the send
slot already `InFlight` (`sending = true`) when the egress pass starts. -/
def c2St : ServerSt := ⟨[([3], ⟨c2Conn⟩)], ⟨[0, 0], 0, true, [], []⟩⟩

/-- The state after the C2 egress pass. -/
def c2After : ServerSt :=
  ⟨[([3], ⟨⟨some 0, false, false, [], [], false⟩⟩)], ⟨[5, 0], 0, true, [], []⟩⟩

/-- C2: with the send slot already `InFlight`, the egress loop keeps pulling
from `conn.send` (the whole queue, datagram and `Done`, is consumed) yet hands
nothing to the socket: the pulled datagram is neither emitted nor still queued
— it is dropped, not deferred. -/
theorem C2_inflight_egress_drops_datagram :
    send_packets c2St = (c2After, []) ∧
    c2St.chan.sending = true ∧
    c2After.chan.emitted = [] ∧
    c2After.clients.map (fun kc => kc.2.conn.sendQueue) = [[]] :=
  ⟨rfl, rfl, rfl, rfl⟩

/-! ### C3: the in-flight send buffer is overwritten (code bug) -/

/-- Server state for the C3 failing input: send slot `InFlight`, buffer
holding the three bytes of the in-flight datagram. -/
def c3St : ServerSt := ⟨[], ⟨[7, 7, 7], 3, true, [], []⟩⟩

/-- The state after processing a version-negotiation Initial in `c3St`. -/
def c3After : ServerSt := ⟨[], ⟨[9, 9, 7], 2, true, [], []⟩⟩

/-- Server state for the egress half of C3. -/
def c3eSt : ServerSt := ⟨[], ⟨[0, 0], 0, true, [], []⟩⟩

/-- C3: while the send slot is `InFlight`, no new send is issued (`emitted`
stays unchanged — that half of the claim holds), but the shared send buffer of
the in-flight operation is overwritten on both writing paths: the handshake
reply path (`negotiate_version` writes into `out`) and the per-connection
egress path (`conn.send` writes into `out`). -/
theorem C3_inflight_buffer_overwritten :
    process_packets vnApi from0 [0] c3St =
      some (c3After, true, [.negotiateVersion [1] [2]]) ∧
    c3St.chan.sending = true ∧
    c3After.chan.out ≠ c3St.chan.out ∧
    c3After.chan.emitted = c3St.chan.emitted ∧
    (egressOne c3eSt [.okD [5] dst0]).1.chan.out ≠ c3eSt.chan.out :=
  ⟨rfl, rfl, by decide, rfl, by decide⟩

/-! ### C4: the new entry is keyed by the raw dcid, not its derivation -/

/-- Header carried by the C4 input: Initial, supported version, valid token
embedding the sender address and the original destination id `[42]`. -/
def c4Hdr : Header :=
  ⟨.initial, 7, [9], List.replicate 20 1,
   some ([113, 117, 105, 99, 104, 101] ++ [1, 2, 3, 4] ++ [42])⟩

/-- Oracle bundle for the C4 input: the keyed hash maps everything to 32 zero
bytes, so the routed id of the header's dcid is twenty zero bytes. -/
def c4Api : Api :=
  ⟨fun _ => true, fun _ _ => [], fun _ _ _ _ _ => [], fun _ => List.replicate 32 0,
   fun _ => some c4Hdr, fun _ _ _ => conn0⟩

/-- C4 counterexample: the accepted connection is inserted under the raw
`hdr.dcid` (twenty ones); looking up the registry under the claim's key — the
keyed-hash derivation of the header's destination id (twenty zeros) — finds
nothing, refuting "stored keyed by the RoutingIdentifier of the header's
destination connection identifier". -/
theorem C4_counterexample :
    process_packets c4Api from0 [0] st0 =
      some (⟨[(List.replicate 20 1, ⟨conn0⟩)], ⟨[], 0, false, [], []⟩⟩, true,
        [.acceptCall (List.replicate 20 1) (some [42]) from0,
         .ingest (List.replicate 20 1) true]) ∧
    lookupC [(List.replicate 20 1, ⟨conn0⟩)] (List.replicate 20 0) = none :=
  ⟨rfl, rfl⟩

/-- C4 amended: for every Initial packet carrying a valid token that matches
the sender (and passing the identifier-length check), exactly one registry
entry is created, and it is stored keyed by the raw header destination
connection identifier (not by its keyed-hash derivation); all other keys are
untouched. -/
theorem C4_amended_entry_keyed_raw_dcid (api : Api) (src : SocketAddr) (pkt : Bytes)
    (st : ServerSt) (hdr : Header) (tok odcid : Bytes)
    (hp : api.parseHeader pkt = some hdr)
    (hty : hdr.ty = PacketType.initial)
    (hv : api.version_is_supported hdr.version = true)
    (htk : hdr.token = some tok)
    (hne : tok.isEmpty = false)
    (hval : validate_token src tok = some odcid)
    (hd : MAX_CONN_ID_LEN ≤ (api.hmacSign hdr.dcid).length)
    (hdl : hdr.dcid.length = MAX_CONN_ID_LEN)
    (h1 : containsKey st.clients hdr.dcid = false)
    (h2 : containsKey st.clients ((api.hmacSign hdr.dcid).take MAX_CONN_ID_LEN) = false) :
    ∃ st' ret tr, process_packets api src pkt st = some (st', ret, tr) ∧
      (lookupC st'.clients hdr.dcid).isSome = true ∧
      st'.clients.length = st.clients.length + 1 ∧
      ∀ k, k ≠ hdr.dcid → lookupC st'.clients k = lookupC st.clients k := by
  have hclen : ((api.hmacSign hdr.dcid).take MAX_CONN_ID_LEN).length = MAX_CONN_ID_LEN := by
    rw [List.length_take]
    exact min_eq_left hd
  have hh : handle_handshake api src hdr ((api.hmacSign hdr.dcid).take MAX_CONN_ID_LEN) =
      some (.ok ⟨api.accept hdr.dcid (some odcid) src⟩, none,
        [.acceptCall hdr.dcid (some odcid) src]) := by
    unfold handle_handshake
    rw [if_neg (by simp [hty]), if_neg (by simp [hv]), if_neg (by simp [hclen]), htk]
    simp [hne, hval, hclen, hdl]
  have hpb : process_packets api src pkt st =
      handshakeBranch api src hdr ((api.hmacSign hdr.dcid).take MAX_CONN_ID_LEN) st := by
    simp only [process_packets, hp]
    rw [if_neg (Nat.not_lt.mpr hd)]
    simp [h1, h2]
  rw [hpb]
  simp only [handshakeBranch, hh, applyWrite, lookupC_insertC_self]
  have hcl := ingestEcho_clients
    ⟨insertC hdr.dcid ⟨api.accept hdr.dcid (some odcid) src⟩ st.clients, st.chan⟩
    hdr.dcid ⟨api.accept hdr.dcid (some odcid) src⟩ [.acceptCall hdr.dcid (some odcid) src]
  rcases hres : ingestEcho
      ⟨insertC hdr.dcid ⟨api.accept hdr.dcid (some odcid) src⟩ st.clients, st.chan⟩
      hdr.dcid ⟨api.accept hdr.dcid (some odcid) src⟩ [.acceptCall hdr.dcid (some odcid) src]
    with ⟨st', ret, tr'⟩
  rw [hres] at hcl
  dsimp only at hcl
  refine ⟨st', ret, tr', rfl, ?_, ?_, ?_⟩
  · rcases hcl with hsame | ⟨c', hins⟩
    · rw [hsame]
      simp [lookupC_insertC_self]
    · rw [hins]
      show (lookupC (insertC hdr.dcid c'
        (insertC hdr.dcid ⟨api.accept hdr.dcid (some odcid) src⟩ st.clients)) hdr.dcid).isSome = true
      rw [insertC_insertC, lookupC_insertC_self]
      rfl
  · rcases hcl with hsame | ⟨c', hins⟩
    · rw [hsame]
      exact insertC_length hdr.dcid _ st.clients h1
    · rw [hins]
      show (insertC hdr.dcid c'
        (insertC hdr.dcid ⟨api.accept hdr.dcid (some odcid) src⟩ st.clients)).length =
          st.clients.length + 1
      rw [insertC_insertC]
      exact insertC_length hdr.dcid _ st.clients h1
  · intro k hk
    rcases hcl with hsame | ⟨c', hins⟩
    · rw [hsame]
      exact lookupC_insertC_ne hdr.dcid k _ st.clients hk
    · rw [hins]
      show lookupC (insertC hdr.dcid c'
        (insertC hdr.dcid ⟨api.accept hdr.dcid (some odcid) src⟩ st.clients)) k =
          lookupC st.clients k
      rw [insertC_insertC]
      exact lookupC_insertC_ne hdr.dcid k _ st.clients hk

/-- C4 witness: the amended statement holds at the concrete C4 input. -/
theorem C4_witness : ∃ st' ret tr,
    process_packets c4Api from0 [0] st0 = some (st', ret, tr) ∧
    (lookupC st'.clients (List.replicate 20 1)).isSome = true ∧
    st'.clients.length = st0.clients.length + 1 ∧
    ∀ k, k ≠ List.replicate 20 1 → lookupC st'.clients k = lookupC st0.clients k :=
  C4_amended_entry_keyed_raw_dcid c4Api from0 [0] st0 c4Hdr
    ([113, 117, 105, 99, 104, 101] ++ [1, 2, 3, 4] ++ [42]) [42]
    rfl rfl rfl rfl rfl rfl (by decide) rfl rfl rfl
